import Mathlib

/-!
CrazyDeathSfx: the custom death-sound import, playback and settings round trip.

A shallow embedding of `DeathSoundManager` (src/main.cpp, lines 10-124) and of
`CrazyDeathSettingsLayer::onToggleCustom` (lines 237-247).

The host collaborators the methods talk to are made explicit state:

* the filesystem (`std::filesystem`) is a finite table from resolved paths to
  nodes (a regular file with its bytes, a directory, or a directory the process
  may not search);
* the host settings API (`Mod::getSettingValue` / `setSettingValue`) is a
  key/value store;
* notifications and `playEffect` calls are returned as lists;
* a `filesystem_error` thrown by a `std::filesystem` call is the value `none`.

Paths are POSIX paths, read the way the kernel reads them: component by
component from the root (a relative path as well), every component being looked
up in a directory that exists and may be searched. A name above `NAME_MAX` bytes,
a path of `PATH_MAX` bytes or more and a directory that may not be searched make
the lookup fail with an error; a missing directory or a regular file on the way
make it find nothing. Links are not part of the model, so one resolved path names
one object. The `float` and `double` values are bit patterns, converted into one
another as IEEE 754 prescribes, rounding to nearest, ties to even.
-/

namespace CrazyDeathSfx

/-! ## Paths (`std::filesystem::path`) -/

/-- The components of a path, cut at every `/`. The last component is what follows
the last separator, so it is empty for a path that ends in a separator. -/
def splitPath : List Char → List (List Char)
  | [] => [[]]
  | c :: cs =>
    if c = '/' then [] :: splitPath cs
    else
      match splitPath cs with
      | [] => [[c]]
      | h :: t => (c :: h) :: t

/-- The text of `std::filesystem::path(p).filename()`: what follows the last separator. -/
def filenameChars (p : List Char) : List Char :=
  (splitPath p).getLastD []

/-- The method `path::filename().string()`. -/
def filename (p : String) : String :=
  String.mk (filenameChars p.data)

/-- The extension of a file name: from its rightmost period to the end, period
included. The names `.` and `..` have none, a name without a period has none, and a
period that is the first character of the name does not start an extension. -/
def extensionChars (f : List Char) : List Char :=
  if f = ['.'] ∨ f = ['.', '.'] then []
  else if '.' ∈ f then
    let tail := (f.reverse.takeWhile (fun c => c ≠ '.')).reverse
    if f.length = tail.length + 1 then [] else '.' :: tail
  else []

/-- The method `path::extension().string()`. -/
def extension (p : String) : String :=
  String.mk (extensionChars (filenameChars p.data))

/-- The call `std::transform(ext.begin(), ext.end(), ext.begin(), ::tolower)`:
each of `A`..`Z` becomes the matching lower-case letter, every other character stays. -/
def toLowerStr (s : String) : String :=
  String.mk (s.data.map Char.toLower)

/-- A resolved path: the names from the root down to the object. The root is `[]`. -/
abbrev Key := List String

/-- One step of reading a path: an empty component and `.` stay in place, `..` goes up
(and stays at the root), a name goes down. -/
def resolveStep (k : Key) (c : List Char) : Key :=
  if c = [] ∨ c = ['.'] then k
  else if c = ['.', '.'] then k.dropLast
  else k ++ [String.mk c]

/-- The resolved path at which reading a path string ends, when every lookup on the
way goes through (`walk` below says whether it does). -/
def resolve (p : String) : Key :=
  (splitPath p.data).foldl resolveStep []

/-- The longest file name, in bytes (`NAME_MAX` of POSIX, as Linux and Android set it). -/
def NAME_MAX : Nat := 255

/-- The size a path, its closing zero byte included, may not exceed (`PATH_MAX`). -/
def PATH_MAX : Nat := 4096

/-- The bytes a text takes in a `std::string`. -/
def byteLength (l : List Char) : Nat :=
  (l.map Char.utf8Size).sum

/-! ## The filesystem (`std::filesystem`) -/

/-- A filesystem object: a regular file with its bytes, a directory, or a directory
the process has no permission to search. -/
inductive Node where
  | file (bytes : List Nat)
  | dir
  | lockedDir
deriving DecidableEq, Repr

/-- The filesystem: a table of the objects that exist, by resolved path. The first
entry of a path is the object; the root is a directory and needs no entry. -/
abbrev FileSystem := List (Key × Node)

/-- The first entry of the table for a resolved path. -/
def lookupKey : FileSystem → Key → Option Node
  | [], _ => none
  | (q, n) :: rest, k => if q = k then some n else lookupKey rest k

/-- The object at a resolved path, if there is one. -/
def node (fs : FileSystem) (k : Key) : Option Node :=
  if k = [] then some Node.dir else lookupKey fs k

/-- Whether a lookup found a directory, of either kind. -/
def isDirectory : Option Node → Bool
  | some Node.dir => true
  | some Node.lockedDir => true
  | _ => false

/-- The table without the entries of one resolved path. -/
def erase (fs : FileSystem) (k : Key) : FileSystem :=
  fs.filter (fun e => decide (e.1 ≠ k))

/-- The table with a regular file written at a resolved path. -/
def write (fs : FileSystem) (k : Key) (bytes : List Nat) : FileSystem :=
  (k, Node.file bytes) :: erase fs k

/-- Whether some object lies strictly below a resolved path. -/
def hasChild (fs : FileSystem) (k : Key) : Bool :=
  fs.any (fun e => decide (k.length < e.1.length ∧ e.1.take k.length = k))

/-- How reading a path ends: with an error other than "not found" (`failed`: a name
too long, a directory that may not be searched), at a regular file where a directory
is needed (`notDir`, the error `ENOTDIR`), at a directory that is missing (`missing`,
the error `ENOENT`), or at a resolved path (`reached`), whose object may exist or not. -/
inductive Walk where
  | failed
  | notDir
  | missing
  | reached (k : Key)
deriving DecidableEq, Repr

/-- Reading the components of a path from the object `cur` on. Every component is
looked up in `cur`, which must be a directory; a component that is not empty needs the
permission to search it, and a name must not exceed `NAME_MAX` bytes. -/
def walkFrom (fs : FileSystem) : Key → List (List Char) → Walk
  | cur, [] => Walk.reached cur
  | cur, c :: rest =>
    match node fs cur with
    | none => Walk.missing
    | some (Node.file _) => Walk.notDir
    | some Node.lockedDir => if c = [] then walkFrom fs cur rest else Walk.failed
    | some Node.dir =>
      if c = [] ∨ c = ['.'] then walkFrom fs cur rest
      else if c = ['.', '.'] then
        (if isDirectory (node fs cur.dropLast) = true then walkFrom fs cur.dropLast rest
         else Walk.missing)
      else if NAME_MAX < byteLength c then Walk.failed
      else walkFrom fs (cur ++ [String.mk c]) rest

/-- Reading a path string: the empty path names nothing, a path of `PATH_MAX` bytes or
more is an error, any other path is read from the root. -/
def walk (fs : FileSystem) (p : String) : Walk :=
  if p = "" then Walk.missing
  else if PATH_MAX ≤ byteLength p.data then Walk.failed
  else walkFrom fs [] (splitPath p.data)

/-- What `status(p)` finds when it finds something: the object the path leads to. -/
def status (fs : FileSystem) (p : String) : Option Node :=
  match walk fs p with
  | Walk.reached k => node fs k
  | _ => none

/-- The call `std::filesystem::exists(p)`: `none` stands for the `filesystem_error` it
throws when the path cannot be read for another reason than "not found". -/
def exists_ (fs : FileSystem) (p : String) : Option Bool :=
  match walk fs p with
  | Walk.failed => none
  | Walk.notDir => some false
  | Walk.missing => some false
  | Walk.reached k => some (node fs k).isSome

/-- The call `std::filesystem::file_size(p)`: the length of a regular file; `none`
stands for the `filesystem_error` it throws for anything else. -/
def file_size (fs : FileSystem) (p : String) : Option Nat :=
  match status fs p with
  | some (Node.file b) => some b.length
  | _ => none

/-- Whether a component names nothing new: the empty component, `.` or `..`. -/
def isDots (c : List Char) : Bool :=
  decide (c = [] ∨ c = ['.'] ∨ c = ['.', '.'])

/-- The directories `create_directories` makes while reading the components of a path
from the directory `cur` on, and whether it got to the end: a missing directory is
created in a directory that may be searched, and a regular file in the way, a name too
long or a directory that may not be searched end it with an error. The flag `made`
tells that a directory was found missing before: the library then asks for no object
behind the last name of the path, so that components `.` and `..` that end the path are
not looked up in a directory that may not be searched. -/
def mkdirFrom (fs : FileSystem) : Bool → Key → List (List Char) → FileSystem × Bool
  | _, _, [] => (fs, true)
  | made, cur, c :: rest =>
    match node fs cur with
    | none => (fs, false)
    | some (Node.file _) => (fs, false)
    | some Node.lockedDir =>
      if c = [] then mkdirFrom fs made cur rest
      else (fs, made && (c :: rest).all isDots)
    | some Node.dir =>
      if c = [] ∨ c = ['.'] then mkdirFrom fs made cur rest
      else if c = ['.', '.'] then
        (if isDirectory (node fs cur.dropLast) = true then mkdirFrom fs made cur.dropLast rest
         else (fs, false))
      else if NAME_MAX < byteLength c then (fs, false)
      else
        match node fs (cur ++ [String.mk c]) with
        | none =>
          mkdirFrom ((cur ++ [String.mk c], Node.dir) :: fs) true (cur ++ [String.mk c]) rest
        | some (Node.file _) => (fs, false)
        | some _ => mkdirFrom fs made (cur ++ [String.mk c]) rest

/-- The call `std::filesystem::create_directories(p)`, as a pair: the filesystem it
leaves, and whether it returned (`false` stands for the `filesystem_error` thrown).
The empty path and a path of `PATH_MAX` bytes or more are errors. -/
def createDirs (fs : FileSystem) (p : String) : FileSystem × Bool :=
  if p = "" ∨ PATH_MAX ≤ byteLength p.data then (fs, false)
  else mkdirFrom fs false [] (splitPath p.data)

/-- The call `std::filesystem::create_directories(p)`: every missing directory on the
way to `p` is created; `none` stands for the `filesystem_error` thrown. -/
def create_directories (fs : FileSystem) (p : String) : Option FileSystem :=
  if (createDirs fs p).2 = true then some (createDirs fs p).1 else none

/-- Whether the path ends in the component `.` or `..`. -/
def endsInDot (p : String) : Bool :=
  decide (filenameChars p.data = ['.'] ∨ filenameChars p.data = ['.', '.'])

/-- The call `std::filesystem::remove(p)`: nothing to do when `p` does not exist, a
regular file or an empty directory is removed; `none` stands for the
`filesystem_error` thrown when the path cannot be read for another reason than a
missing directory, for the root, for a directory that is not empty and for a directory
named through `.` or `..`. -/
def remove (fs : FileSystem) (p : String) : Option FileSystem :=
  match walk fs p with
  | Walk.failed => none
  | Walk.notDir => none
  | Walk.missing => some fs
  | Walk.reached k =>
    match node fs k with
    | none => some fs
    | some (Node.file _) => some (erase fs k)
    | some _ =>
      if k = [] ∨ endsInDot p = true ∨ hasChild fs k = true then none
      else some (erase fs k)

/-- The call `std::filesystem::copy_file(source, target, overwrite_existing)`; `none` stands
for the `filesystem_error` thrown when the source is not a regular file, when the
target is a directory or the source itself, or when the target cannot be read or
created (its directory is missing or may not be searched, its name is too long). -/
def copy_file (fs : FileSystem) (source target : String) : Option FileSystem :=
  match walk fs source, walk fs target with
  | Walk.reached ks, Walk.reached kt =>
    match node fs ks, node fs kt with
    | some (Node.file b), none => some (write fs kt b)
    | some (Node.file b), some (Node.file _) =>
      if ks = kt then none else some (write fs kt b)
    | _, _ => none
  | _, _ => none

/-! ## The numbers (`float` and `double`) -/

/-- A C++ `float`, by its 32 bits: sign, 8 bits of exponent, 23 bits of fraction. -/
structure CFloat where
  bits : Fin 4294967296
deriving DecidableEq, Repr

/-- A C++ `double`, by its 64 bits: sign, 11 bits of exponent, 52 bits of fraction. -/
structure CDouble where
  bits : Fin 18446744073709551616
deriving DecidableEq, Repr

/-- The place of the highest bit set in a fraction of 23 bits that is not zero. -/
def topBit (m : Nat) : Nat → Nat
  | 0 => 0
  | k + 1 => if 2 ^ (k + 1) ≤ m then k + 1 else topBit m k

/-- The fraction of a NaN made quiet: its highest bit, bit 22, is set. -/
def setQuiet (m : Nat) : Nat :=
  if m / 2 ^ 22 % 2 = 1 then m else m + 2 ^ 22

/-- The bits of the `double` a `float` converts to. The conversion is exact; a
signalling NaN becomes the quiet NaN with the same payload. -/
def widenBits (f : Nat) : Nat :=
  let s := f / 2 ^ 31
  let e := f / 2 ^ 23 % 256
  let m := f % 2 ^ 23
  if e = 255 then
    s * 2 ^ 63 + 2047 * 2 ^ 52 + (if m = 0 then 0 else setQuiet m * 2 ^ 29)
  else if e = 0 then
    if m = 0 then s * 2 ^ 63
    else s * 2 ^ 63 + (topBit m 22 + 874) * 2 ^ 52 + (m - 2 ^ topBit m 22) * 2 ^ (52 - topBit m 22)
  else s * 2 ^ 63 + (e + 896) * 2 ^ 52 + m * 2 ^ 29

/-- The number `M / 2 ^ sh`, rounded to the nearest integer, a tie going to the even one. -/
def roundShift (M sh : Nat) : Nat :=
  if M % 2 ^ sh > 2 ^ (sh - 1) ∨ (M % 2 ^ sh = 2 ^ (sh - 1) ∧ M / 2 ^ sh % 2 = 1) then
    M / 2 ^ sh + 1
  else M / 2 ^ sh

/-- The bits of the `float` a `double` converts to: the nearest `float`, a tie going to
the even fraction, infinity above the largest `float`, and a NaN made quiet with the
high 22 bits of its payload. -/
def narrowBits (d : Nat) : Nat :=
  let s := d / 2 ^ 63
  let e := d / 2 ^ 52 % 2048
  let m := d % 2 ^ 52
  if e = 2047 then
    s * 2 ^ 31 + 255 * 2 ^ 23 + (if m = 0 then 0 else setQuiet (m / 2 ^ 29))
  else
    let M := if e = 0 then m else 2 ^ 52 + m
    let sh := if e < 897 then 926 - max e 1 else 29
    let base := if e < 897 then 0 else (e - 897) * 2 ^ 23
    let r := base + roundShift M sh
    s * 2 ^ 31 + (if r ≥ 255 * 2 ^ 23 then 255 * 2 ^ 23 else r)

/-- The implicit conversion of a `float` to `double`. -/
def widen (x : CFloat) : CDouble :=
  ⟨⟨widenBits x.bits.val % 18446744073709551616, Nat.mod_lt _ (by decide)⟩⟩

/-- The implicit conversion of a `double` to `float`. -/
def narrow (d : CDouble) : CFloat :=
  ⟨⟨narrowBits d.bits.val % 4294967296, Nat.mod_lt _ (by decide)⟩⟩

/-- A signalling NaN: the exponent is all ones, the fraction is not zero and its
highest bit is clear. -/
def isSignallingNaN (x : CFloat) : Prop :=
  x.bits.val / 2 ^ 23 % 256 = 255 ∧ x.bits.val % 2 ^ 23 ≠ 0 ∧ x.bits.val / 2 ^ 22 % 2 = 0

instance (x : CFloat) : Decidable (isSignallingNaN x) :=
  inferInstanceAs (Decidable (_ ∧ _ ∧ _))

/-! ## The store (`DeathSoundManager`, lines 10-124) -/

/-- The seven fields of `DeathSoundManager` (lines 17-23), with their initial values.
The bit pattern `0x3f800000` is `1.0f`. -/
structure DeathSoundManager where
  soundFilePath : String := ""
  soundFileName : String := "Default (explode_001.ogg)"
  volume : CFloat := ⟨0x3f800000⟩
  pitch : CFloat := ⟨0x3f800000⟩
  speed : CFloat := ⟨0x3f800000⟩
  enabled : Bool := true
  useCustom : Bool := false
deriving DecidableEq, Repr

/-- What one call of `loadSoundFromPath` leaves behind: the value returned (`none`
when a `filesystem_error` left the function uncaught), the notifications shown, the
store and the filesystem. -/
structure Result where
  ret : Option Bool
  notes : List String
  store : DeathSoundManager
  fs : FileSystem
deriving DecidableEq, Repr

/-- The directory `Mod::get()->getConfigDir().string() + "/crazydeathsfx/"` (line 76);
the host's configuration directory is a parameter. -/
def modDir (configDir : String) : String :=
  configDir ++ "/crazydeathsfx/"

/-- The destination `modDir + filename` (lines 79-80). -/
def destPath (configDir path : String) : String :=
  modDir configDir ++ filename path

/-- The filesystem calls of the guarded block (lines 83-88): the destination is
removed when it exists, then the source is copied there. `none` stands for a
`filesystem_error` thrown by one of the three calls, with the filesystem it leaves. -/
def tryCopy (fs : FileSystem) (path dest : String) : FileSystem × Option FileSystem :=
  match exists_ fs dest with
  | none => (fs, none)
  | some false => (fs, copy_file fs path dest)
  | some true =>
    match remove fs dest with
    | none => (fs, none)
    | some fs2 => (fs2, copy_file fs2 path dest)

/-- The method `DeathSoundManager::loadSoundFromPath` (lines 51-103). -/
def loadSoundFromPath (configDir path : String) (s : DeathSoundManager) (fs : FileSystem) :
    Result :=
  if path = "" then ⟨some false, [], s, fs⟩
  else
    match exists_ fs path with
    | none => ⟨none, [], s, fs⟩
    | some false => ⟨some false, ["File doesn't exist!"], s, fs⟩
    | some true =>
      match file_size fs path with
      | none => ⟨none, [], s, fs⟩
      | some fileSize =>
        if fileSize > 5 * 1024 * 1024 then ⟨some false, ["File too large! Max 5MB"], s, fs⟩
        else
          let ext := toLowerStr (extension path)
          if ext ≠ ".ogg" ∧ ext ≠ ".mp3" ∧ ext ≠ ".wav" then
            ⟨some false, ["Must be .ogg, .mp3, or .wav!"], s, fs⟩
          else
            match create_directories fs (modDir configDir) with
            | none => ⟨none, [], s, (createDirs fs (modDir configDir)).1⟩
            | some fs1 =>
              match (tryCopy fs1 path (destPath configDir path)).2 with
              | none =>
                ⟨some false, ["Failed to copy file!"], s,
                  (tryCopy fs1 path (destPath configDir path)).1⟩
              | some fs3 =>
                ⟨some true, ["Sound loaded successfully!"],
                  { s with soundFilePath := destPath configDir path,
                           soundFileName := filename path,
                           useCustom := true }, fs3⟩

/-- The outcomes of an import, in the words of the specification, and `uncaught` for a
`filesystem_error` that leaves `loadSoundFromPath`. -/
inductive Outcome where
  | success
  | invalidPath
  | fileNotFound
  | fileTooLarge
  | unsupportedFormat
  | copyFailed
  | uncaught
deriving DecidableEq, Repr

/-- The outcome a result stands for: `true` is a success, `false` is told apart by the
notification shown (none at all for the empty path), and there is no value to return
when the exception escaped. -/
def Result.outcome (r : Result) : Outcome :=
  match r.ret, r.notes with
  | none, _ => Outcome.uncaught
  | some true, _ => Outcome.success
  | some false, [] => Outcome.invalidPath
  | some false, n :: _ =>
    if n = "File doesn't exist!" then Outcome.fileNotFound
    else if n = "File too large! Max 5MB" then Outcome.fileTooLarge
    else if n = "Must be .ogg, .mp3, or .wav!" then Outcome.unsupportedFormat
    else Outcome.copyFailed

/-- One call of `FMODAudioEngine::playEffect`. -/
structure PlayEffect where
  source : String
  volume : CFloat
  pitch : CFloat
  speed : CFloat
deriving DecidableEq, Repr

/-- What one call of `playDeathSound` leaves behind: the store, the playbacks started,
and whether it returned (`false` when a `filesystem_error` left the function). -/
structure Played where
  store : DeathSoundManager
  played : List PlayEffect
  returned : Bool
deriving DecidableEq, Repr

/-- The method `DeathSoundManager::playDeathSound` (lines 105-123). The existence check
of line 108 is made only when `useCustom` holds and the path is not empty. -/
def playDeathSound (s : DeathSoundManager) (fs : FileSystem) : Played :=
  if s.enabled = false then ⟨s, [], true⟩
  else if s.useCustom = true ∧ s.soundFilePath ≠ "" then
    match exists_ fs s.soundFilePath with
    | none => ⟨s, [], false⟩
    | some true => ⟨s, [⟨s.soundFilePath, s.volume, s.pitch, s.speed⟩], true⟩
    | some false => ⟨s, [⟨"explode_001.ogg", s.volume, s.pitch, s.speed⟩], true⟩
  else ⟨s, [⟨"explode_001.ogg", s.volume, s.pitch, s.speed⟩], true⟩

/-! ## The host settings (`Mod::getSettingValue`, `Mod::setSettingValue`) -/

/-- A value of the host's key/value settings store. -/
inductive SettingValue where
  | str (s : String)
  | num (d : CDouble)
  | bool (b : Bool)
deriving DecidableEq, Repr

/-- The host's settings store, by key. -/
abbrev Settings := String → Option SettingValue

/-- The call `mod->setSettingValue(key, value)`. -/
def setSettingValue (m : Settings) (key : String) (v : SettingValue) : Settings :=
  fun k => if k = key then some v else m k

/-- The call `mod->getSettingValue<std::string>(key)`; a key without a string gives `""`. -/
def getString (m : Settings) (key : String) : String :=
  match m key with
  | some (SettingValue.str s) => s
  | _ => ""

/-- The call `mod->getSettingValue<double>(key)`; a key without a number gives `0.0`. -/
def getDouble (m : Settings) (key : String) : CDouble :=
  match m key with
  | some (SettingValue.num d) => d
  | _ => ⟨0⟩

/-- The call `mod->getSettingValue<bool>(key)`; a key without a boolean gives `false`. -/
def getBool (m : Settings) (key : String) : Bool :=
  match m key with
  | some (SettingValue.bool b) => b
  | _ => false

/-- What one call of `loadSettings` leaves behind: the store, and whether it returned
(`false` when the `filesystem_error` of line 35 left the function). -/
structure Loaded where
  store : DeathSoundManager
  returned : Bool
deriving DecidableEq, Repr

/-- The seven assignments of `loadSettings` (lines 27-33); the three `double` settings
are narrowed to the `float` fields. -/
def readSettings (m : Settings) : DeathSoundManager :=
  { soundFilePath := getString m "custom-sound-path"
    soundFileName := getString m "sound-name"
    volume := narrow (getDouble m "volume")
    pitch := narrow (getDouble m "pitch")
    speed := narrow (getDouble m "speed")
    enabled := getBool m "enabled"
    useCustom := getBool m "use-custom" }

/-- The method `DeathSoundManager::loadSettings` (lines 25-38). The existence check of
line 35 is made only when the path read is not empty, after the seven assignments. -/
def loadSettings (m : Settings) (fs : FileSystem) : Loaded :=
  if (readSettings m).soundFilePath = "" then ⟨readSettings m, true⟩
  else
    match exists_ fs (readSettings m).soundFilePath with
    | none => ⟨readSettings m, false⟩
    | some true =>
      ⟨{ readSettings m with soundFileName := filename (readSettings m).soundFilePath }, true⟩
    | some false => ⟨readSettings m, true⟩

/-- The method `DeathSoundManager::saveSettings` (lines 40-49); the three `float` fields
are widened to the `double` the store keeps. -/
def saveSettings (s : DeathSoundManager) (m : Settings) : Settings :=
  let m1 := setSettingValue m "custom-sound-path" (SettingValue.str s.soundFilePath)
  let m2 := setSettingValue m1 "sound-name" (SettingValue.str s.soundFileName)
  let m3 := setSettingValue m2 "volume" (SettingValue.num (widen s.volume))
  let m4 := setSettingValue m3 "pitch" (SettingValue.num (widen s.pitch))
  let m5 := setSettingValue m4 "speed" (SettingValue.num (widen s.speed))
  let m6 := setSettingValue m5 "enabled" (SettingValue.bool s.enabled)
  setSettingValue m6 "use-custom" (SettingValue.bool s.useCustom)

/-- The handler `CrazyDeathSettingsLayer::onToggleCustom` (lines 237-247), on the store;
`isOn` is the state of the toggle. -/
def onToggleCustom (isOn : Bool) (s : DeathSoundManager) : DeathSoundManager :=
  let s1 := { s with useCustom := isOn }
  if isOn = false then { s1 with soundFileName := "Default (explode_001.ogg)" } else s1

/-- The characters of the mod directory's path, without the closing separator. -/
def modStem (configDir : String) : List Char :=
  configDir.data ++ "/crazydeathsfx".data

/-- The extensions the import accepts, after lower-casing (line 70). -/
def supported (ext : String) : Prop :=
  ext = ".ogg" ∨ ext = ".mp3" ∨ ext = ".wav"

instance (ext : String) : Decidable (supported ext) :=
  inferInstanceAs (Decidable (ext = ".ogg" ∨ ext = ".mp3" ∨ ext = ".wav"))

/-- The directories of one table are directories of the same kind in the other. -/
def keepsDirs (fs fs2 : FileSystem) : Prop :=
  ∀ q, (node fs q = some Node.dir → node fs2 q = some Node.dir)
    ∧ (node fs q = some Node.lockedDir → node fs2 q = some Node.lockedDir)

/-! ## Concrete stores and filesystems -/

/-- The store as the program starts with it (lines 17-23). -/
def initialStore : DeathSoundManager := {}

/-- A device with a sound file of three bytes and a text file in `/sd`, and an empty `/cfg`. -/
def sdCard : FileSystem :=
  [(["sd", "a.WaV"], Node.file [1, 2, 3]), (["sd", "notes.txt"], Node.file [7, 7]),
   (["sd"], Node.dir), (["cfg"], Node.dir)]

/-- The device once the mod directory is there. -/
def sdCardReady : FileSystem :=
  (["cfg", "crazydeathsfx"], Node.dir) :: sdCard

/-- The device after `/sd/a.WaV` was imported with `/cfg` as configuration directory. -/
def sdCardImported : FileSystem :=
  (["cfg", "crazydeathsfx", "a.WaV"], Node.file [1, 2, 3]) :: sdCardReady

/-- A device where a regular file named `crazydeathsfx` sits in the configuration
directory, in the place of the mod directory. -/
def blockedCard : FileSystem :=
  [(["cfg", "crazydeathsfx"], Node.file [0]),
   (["sd", "a.wav"], Node.file [1, 2, 3]), (["sd"], Node.dir), (["cfg"], Node.dir)]

/-- A device where the destination of `/sd/a.wav` is taken by a directory that is not empty. -/
def clashCard : FileSystem :=
  [(["cfg", "crazydeathsfx", "a.wav", "x"], Node.file []),
   (["cfg", "crazydeathsfx", "a.wav"], Node.dir), (["cfg", "crazydeathsfx"], Node.dir),
   (["sd", "a.wav"], Node.file [1, 2, 3]), (["sd"], Node.dir), (["cfg"], Node.dir)]

/-- A device with a sound file of 5 MiB + 1 byte. -/
def bigCard : FileSystem :=
  [(["sd", "big.ogg"], Node.file (List.replicate 5242881 0)), (["sd"], Node.dir)]

/-- A path in `/sd` whose name, 300 times the letter `a`, is longer than `NAME_MAX`. -/
def longPath : String :=
  "/sd/" ++ String.mk (List.replicate 300 'a')

/-- A store with a custom sound selected whose file, `/sd/gone.ogg`, is not on the device. -/
def staleStore : DeathSoundManager :=
  { soundFilePath := "/sd/gone.ogg", soundFileName := "gone.ogg", useCustom := true }

/-- A store with a custom sound selected whose file, `/sd/a.WaV`, is on the device. -/
def presentStore : DeathSoundManager :=
  { soundFilePath := "/sd/a.WaV", soundFileName := "a.WaV", useCustom := true }

/-- A store with a custom sound selected whose path is `longPath`. -/
def longStore : DeathSoundManager :=
  { soundFilePath := longPath, soundFileName := "a", useCustom := true }

/-- A store with the imported sound as path, and the default label after the custom sound
was switched off. -/
def switchedOffStore : DeathSoundManager :=
  { soundFilePath := "/cfg/crazydeathsfx/a.WaV", useCustom := false }

/-- A store whose volume is the signalling NaN `0x7fa00000`. -/
def nanStore : DeathSoundManager :=
  { volume := ⟨0x7fa00000⟩ }

/-- The settings of a host that has stored nothing yet. -/
def noSettings : Settings := fun _ => none

/-! ## Paths: the destination lies directly in the mod directory -/

theorem splitPath_ne_nil (l : List Char) : splitPath l ≠ [] := by
  cases l with
  | nil => simp [splitPath]
  | cons c cs =>
    unfold splitPath
    split_ifs
    · simp
    · split <;> simp

theorem splitPath_append_slash (a f : List Char) :
    splitPath (a ++ '/' :: f) = splitPath a ++ splitPath f := by
  induction a with
  | nil => simp [splitPath]
  | cons c cs ih =>
    by_cases hc : c = '/'
    · simp [splitPath, hc, ih]
    · have h1 : splitPath (c :: (cs ++ '/' :: f)) =
          match splitPath (cs ++ '/' :: f) with
          | [] => [[c]]
          | h :: t => (c :: h) :: t := by
        rw [splitPath, if_neg hc]
      have h2 : splitPath (c :: cs) =
          match splitPath cs with
          | [] => [[c]]
          | h :: t => (c :: h) :: t := by
        rw [splitPath, if_neg hc]
      rw [List.cons_append, h1, h2, ih]
      cases h : splitPath cs with
      | nil => exact absurd h (splitPath_ne_nil cs)
      | cons x xs => simp

theorem splitPath_of_no_slash (f : List Char) (h : '/' ∉ f) : splitPath f = [f] := by
  induction f with
  | nil => simp [splitPath]
  | cons c cs ih =>
    have hc : c ≠ '/' := fun e => h (by simp [e])
    have hcs : '/' ∉ cs := fun e => h (by simp [e])
    simp [splitPath, hc, ih hcs]

theorem no_slash_of_mem_splitPath (l c : List Char) (h : c ∈ splitPath l) : '/' ∉ c := by
  induction l generalizing c with
  | nil =>
    simp [splitPath] at h
    simp [h]
  | cons x xs ih =>
    by_cases hx : x = '/'
    · simp only [splitPath, hx, if_true, List.mem_cons] at h
      rcases h with h | h
      · simp [h]
      · exact ih c h
    · simp only [splitPath, hx, if_false] at h
      cases hs : splitPath xs with
      | nil => exact absurd hs (splitPath_ne_nil xs)
      | cons y ys =>
        rw [hs] at h
        simp only [List.mem_cons] at h
        rcases h with h | h
        · have hy : '/' ∉ y := ih y (by simp [hs])
          rw [h]
          intro hmem
          rcases List.mem_cons.1 hmem with e | e
          · exact hx e.symm
          · exact hy e
        · exact ih c (by simp [hs, h])

theorem filenameChars_no_slash (l : List Char) : '/' ∉ filenameChars l := by
  apply no_slash_of_mem_splitPath l
  unfold filenameChars
  rcases List.eq_nil_or_concat (splitPath l) with h | ⟨xs, x, h⟩
  · exact absurd h (splitPath_ne_nil l)
  · rw [h]
    simp

theorem modDir_data (configDir : String) :
    (modDir configDir).data = modStem configDir ++ ['/'] := by
  simp [modDir, modStem, String.data_append]

theorem destPath_data (configDir path : String) :
    (destPath configDir path).data = modStem configDir ++ '/' :: filenameChars path.data := by
  simp [destPath, modDir_data, filename, String.data_append]

theorem splitPath_destPath (configDir path : String) :
    splitPath (destPath configDir path).data
      = splitPath (modStem configDir) ++ [filenameChars path.data] := by
  rw [destPath_data, splitPath_append_slash,
    splitPath_of_no_slash _ (filenameChars_no_slash path.data)]

theorem splitPath_modDir (configDir : String) :
    splitPath (modDir configDir).data = splitPath (modStem configDir) ++ [[]] := by
  rw [modDir_data, show modStem configDir ++ ['/'] = modStem configDir ++ '/' :: [] from rfl,
    splitPath_append_slash]
  simp [splitPath]

theorem byteLength_append (a b : List Char) :
    byteLength (a ++ b) = byteLength a + byteLength b := by
  simp [byteLength, List.map_append, List.sum_append]

theorem byteLength_modDir_le (configDir path : String) :
    byteLength (modDir configDir).data ≤ byteLength (destPath configDir path).data := by
  have h : (destPath configDir path).data
      = (modDir configDir).data ++ filenameChars path.data := by
    rw [destPath_data, modDir_data]
    simp
  rw [h, byteLength_append]
  omega

theorem modDir_ne_empty (configDir : String) : modDir configDir ≠ "" := by
  intro h
  have := congrArg String.data h
  rw [modDir_data] at this
  simp at this

/-! ## Reading paths -/

theorem node_root (fs : FileSystem) : node fs [] = some Node.dir := by
  simp [node]

theorem walkFrom_reached_key {fs : FileSystem} {comps : List (List Char)} {cur k : Key}
    (h : walkFrom fs cur comps = Walk.reached k) : k = comps.foldl resolveStep cur := by
  induction comps generalizing cur with
  | nil =>
    simp only [walkFrom, Walk.reached.injEq] at h
    simp [h]
  | cons c rest ih =>
    unfold walkFrom at h
    rw [List.foldl_cons]
    cases hn : node fs cur with
    | none => simp [hn] at h
    | some n =>
      cases n with
      | file b => simp [hn] at h
      | lockedDir =>
        simp only [hn] at h
        by_cases hc : c = []
        · rw [if_pos hc] at h
          have := ih h
          simpa [resolveStep, hc] using this
        · rw [if_neg hc] at h
          cases h
      | dir =>
        simp only [hn] at h
        by_cases h1 : c = [] ∨ c = ['.']
        · rw [if_pos h1] at h
          have := ih h
          simpa [resolveStep, h1] using this
        · rw [if_neg h1] at h
          by_cases h2 : c = ['.', '.']
          · rw [if_pos h2] at h
            by_cases h3 : isDirectory (node fs cur.dropLast) = true
            · rw [if_pos h3] at h
              have := ih h
              simpa [resolveStep, h1, h2] using this
            · rw [if_neg h3] at h
              cases h
          · rw [if_neg h2] at h
            by_cases h4 : NAME_MAX < byteLength c
            · rw [if_pos h4] at h
              cases h
            · rw [if_neg h4] at h
              have := ih h
              simpa [resolveStep, h1, h2] using this

theorem walk_reached {fs : FileSystem} {p : String} {k : Key}
    (h : walk fs p = Walk.reached k) :
    k = resolve p ∧ p ≠ "" ∧ ¬ PATH_MAX ≤ byteLength p.data
      ∧ walkFrom fs [] (splitPath p.data) = Walk.reached k := by
  unfold walk at h
  by_cases h1 : p = ""
  · rw [if_pos h1] at h
    cases h
  · rw [if_neg h1] at h
    by_cases h2 : PATH_MAX ≤ byteLength p.data
    · rw [if_pos h2] at h
      cases h
    · rw [if_neg h2] at h
      exact ⟨walkFrom_reached_key h, h1, h2, h⟩

theorem walk_of_walkFrom {fs : FileSystem} {p : String} {k : Key}
    (h1 : p ≠ "") (h2 : ¬ PATH_MAX ≤ byteLength p.data)
    (h : walkFrom fs [] (splitPath p.data) = Walk.reached k) : walk fs p = Walk.reached k := by
  unfold walk
  rw [if_neg h1, if_neg h2, h]

theorem isDirectory_of_keepsDirs {fs fs2 : FileSystem} (hk : keepsDirs fs fs2) {q : Key}
    (h : isDirectory (node fs q) = true) : isDirectory (node fs2 q) = true := by
  cases hn : node fs q with
  | none => simp [hn, isDirectory] at h
  | some n =>
    cases n with
    | file b => simp [hn, isDirectory] at h
    | dir => rw [(hk q).1 hn]; rfl
    | lockedDir => rw [(hk q).2 hn]; rfl

/-- A path that is read to its end is read to the same end in any table that keeps
the directories. -/
theorem walkFrom_keepsDirs {fs fs2 : FileSystem} (hk : keepsDirs fs fs2)
    {comps : List (List Char)} {cur k : Key}
    (h : walkFrom fs cur comps = Walk.reached k) : walkFrom fs2 cur comps = Walk.reached k := by
  induction comps generalizing cur with
  | nil => simpa [walkFrom] using h
  | cons c rest ih =>
    unfold walkFrom at h ⊢
    cases hn : node fs cur with
    | none => simp [hn] at h
    | some n =>
      cases n with
      | file b => simp [hn] at h
      | lockedDir =>
        simp only [hn] at h
        rw [(hk cur).2 hn]
        by_cases hc : c = []
        · rw [if_pos hc] at h
          simp only [if_pos hc]
          exact ih h
        · rw [if_neg hc] at h
          cases h
      | dir =>
        simp only [hn] at h
        rw [(hk cur).1 hn]
        by_cases h1 : c = [] ∨ c = ['.']
        · rw [if_pos h1] at h
          simp only [if_pos h1]
          exact ih h
        · rw [if_neg h1] at h
          simp only [if_neg h1]
          by_cases h2 : c = ['.', '.']
          · rw [if_pos h2] at h
            simp only [if_pos h2]
            by_cases h3 : isDirectory (node fs cur.dropLast) = true
            · rw [if_pos h3] at h
              rw [if_pos (isDirectory_of_keepsDirs hk h3)]
              exact ih h
            · rw [if_neg h3] at h
              cases h
          · rw [if_neg h2] at h
            simp only [if_neg h2]
            by_cases h4 : NAME_MAX < byteLength c
            · rw [if_pos h4] at h
              cases h
            · rw [if_neg h4] at h
              simp only [if_neg h4]
              exact ih h

theorem walk_keepsDirs {fs fs2 : FileSystem} (hk : keepsDirs fs fs2) {p : String} {k : Key}
    (h : walk fs p = Walk.reached k) : walk fs2 p = Walk.reached k := by
  obtain ⟨-, h1, h2, h3⟩ := walk_reached h
  exact walk_of_walkFrom h1 h2 (walkFrom_keepsDirs hk h3)

theorem walkFrom_head_dir {fs : FileSystem} {c : List Char} {rest : List (List Char)}
    {cur k : Key} (h : walkFrom fs cur (c :: rest) = Walk.reached k) :
    isDirectory (node fs cur) = true := by
  unfold walkFrom at h
  cases hn : node fs cur with
  | none => simp [hn] at h
  | some n =>
    cases n with
    | file b => simp [hn] at h
    | dir => rfl
    | lockedDir => rfl

/-- When a path that ends in a name is read to its end, creating the directories of the
path before the name creates nothing and succeeds. -/
theorem mkdirFrom_of_walkFrom {fs : FileSystem} {xs : List (List Char)} {f : List Char}
    {cur k : Key} (made : Bool) (h : walkFrom fs cur (xs ++ [f]) = Walk.reached k) :
    mkdirFrom fs made cur (xs ++ [[]]) = (fs, true) := by
  induction xs generalizing cur with
  | nil =>
    have hd := walkFrom_head_dir h
    simp only [List.nil_append]
    unfold mkdirFrom
    cases hn : node fs cur with
    | none => simp [hn, isDirectory] at hd
    | some n =>
      cases n with
      | file b => simp [hn, isDirectory] at hd
      | dir => simp [mkdirFrom]
      | lockedDir => simp [mkdirFrom]
  | cons c rest ih =>
    simp only [List.cons_append] at h ⊢
    unfold walkFrom at h
    unfold mkdirFrom
    cases hn : node fs cur with
    | none => simp [hn] at h
    | some n =>
      cases n with
      | file b => simp [hn] at h
      | lockedDir =>
        simp only [hn] at h ⊢
        by_cases hc : c = []
        · rw [if_pos hc] at h
          rw [if_pos hc]
          exact ih h
        · rw [if_neg hc] at h
          cases h
      | dir =>
        simp only [hn] at h ⊢
        by_cases h1 : c = [] ∨ c = ['.']
        · rw [if_pos h1] at h
          rw [if_pos h1]
          exact ih h
        · rw [if_neg h1] at h
          rw [if_neg h1]
          by_cases h2 : c = ['.', '.']
          · rw [if_pos h2] at h
            rw [if_pos h2]
            by_cases h3 : isDirectory (node fs cur.dropLast) = true
            · rw [if_pos h3] at h
              rw [if_pos h3]
              exact ih h
            · rw [if_neg h3] at h
              cases h
          · rw [if_neg h2] at h
            rw [if_neg h2]
            by_cases h4 : NAME_MAX < byteLength c
            · rw [if_pos h4] at h
              cases h
            · rw [if_neg h4] at h
              rw [if_neg h4]
              have hd : isDirectory (node fs (cur ++ [String.mk c])) = true := by
                cases hr : rest ++ [f] with
                | nil => simp at hr
                | cons y ys =>
                  rw [hr] at h
                  exact walkFrom_head_dir h
              cases hm : node fs (cur ++ [String.mk c]) with
              | none => simp [hm, isDirectory] at hd
              | some n2 =>
                cases n2 with
                | file b => simp [hm, isDirectory] at hd
                | dir => exact ih h
                | lockedDir => exact ih h

/-- Creating directories changes no object that exists. -/
theorem mkdirFrom_mono (fs : FileSystem) (comps : List (List Char)) (made : Bool) (cur : Key)
    {q : Key} {n : Node} (hq : node fs q = some n) :
    node (mkdirFrom fs made cur comps).1 q = some n := by
  induction comps generalizing fs made cur with
  | nil => simpa [mkdirFrom] using hq
  | cons c rest ih =>
    unfold mkdirFrom
    cases hn : node fs cur with
    | none => simpa using hq
    | some m =>
      cases m with
      | file b => simpa using hq
      | lockedDir =>
        simp only
        split_ifs
        · exact ih fs made cur hq
        · exact hq
      | dir =>
        simp only
        split_ifs
        · exact ih fs made cur hq
        · exact ih fs made _ hq
        · exact hq
        · exact hq
        · cases hm : node fs (cur ++ [String.mk c]) with
          | none =>
            simp only
            apply ih
            have hne : cur ++ [String.mk c] ≠ q := by
              intro he
              rw [he, hq] at hm
              cases hm
            by_cases hroot : q = []
            · simpa [node, hroot] using hq
            · simp only [node, hroot, if_false, lookupKey, hne] at hq ⊢
              exact hq
          | some m2 =>
            cases m2 with
            | file b => simpa using hq
            | dir => exact ih fs made _ hq
            | lockedDir => exact ih fs made _ hq

theorem create_directories_node_mono {fs fs1 : FileSystem} {p : String}
    (h : create_directories fs p = some fs1) {q : Key} {n : Node} (hq : node fs q = some n) :
    node fs1 q = some n := by
  unfold create_directories at h
  split_ifs at h with h1
  have h2 : fs1 = (createDirs fs p).1 := (Option.some.inj h).symm
  rw [h2]
  unfold createDirs
  split_ifs
  · exact hq
  · exact mkdirFrom_mono fs _ _ _ hq

/-- When the destination is read to its end, creating the mod directory creates nothing
and succeeds. -/
theorem create_directories_of_walk_dest {fs : FileSystem} {configDir path : String} {k : Key}
    (h : walk fs (destPath configDir path) = Walk.reached k) :
    create_directories fs (modDir configDir) = some fs := by
  obtain ⟨-, -, h2, h3⟩ := walk_reached h
  rw [splitPath_destPath] at h3
  have hm := mkdirFrom_of_walkFrom false h3
  have hlen : ¬ PATH_MAX ≤ byteLength (modDir configDir).data := by
    have := byteLength_modDir_le configDir path
    omega
  have hc : createDirs fs (modDir configDir) = (fs, true) := by
    unfold createDirs
    rw [if_neg (by simp [modDir_ne_empty, hlen]), splitPath_modDir, hm]
  simp [create_directories, hc]

/-! ## The filesystem operations -/

theorem lookupKey_erase_self (fs : FileSystem) (k : Key) : lookupKey (erase fs k) k = none := by
  induction fs with
  | nil => simp [erase, lookupKey]
  | cons e rest ih =>
    obtain ⟨q, n⟩ := e
    by_cases hq : q = k
    · simpa [erase, hq] using ih
    · have : erase ((q, n) :: rest) k = (q, n) :: erase rest k := by simp [erase, hq]
      rw [this, lookupKey, if_neg hq, ih]

theorem lookupKey_erase_of_ne (fs : FileSystem) (k q : Key) (h : q ≠ k) :
    lookupKey (erase fs k) q = lookupKey fs q := by
  induction fs with
  | nil => simp [erase, lookupKey]
  | cons e rest ih =>
    obtain ⟨r, n⟩ := e
    by_cases hr : r = k
    · have h1 : erase ((r, n) :: rest) k = erase rest k := by simp [erase, hr]
      have h2 : r ≠ q := fun e => h (e ▸ hr)
      rw [h1, lookupKey, if_neg h2, ih]
    · have h1 : erase ((r, n) :: rest) k = (r, n) :: erase rest k := by simp [erase, hr]
      rw [h1, lookupKey, lookupKey, ih]

theorem node_erase_self (fs : FileSystem) (k : Key) (hk : k ≠ []) :
    node (erase fs k) k = none := by
  simp [node, hk, lookupKey_erase_self]

theorem node_erase_of_ne (fs : FileSystem) (k q : Key) (h : q ≠ k) :
    node (erase fs k) q = node fs q := by
  simp [node, lookupKey_erase_of_ne fs k q h]

theorem node_write_self (fs : FileSystem) (k : Key) (b : List Nat) (hk : k ≠ []) :
    node (write fs k b) k = some (Node.file b) := by
  simp [node, hk, write, lookupKey]

theorem node_write_of_ne (fs : FileSystem) (k q : Key) (b : List Nat) (h : q ≠ k) :
    node (write fs k b) q = node fs q := by
  have h2 : k ≠ q := fun e => h e.symm
  simp [node, write, lookupKey, h2, lookupKey_erase_of_ne fs k q h]

theorem erase_erase (fs : FileSystem) (k : Key) : erase (erase fs k) k = erase fs k := by
  simp [erase, List.filter_filter]

theorem erase_write (fs : FileSystem) (k : Key) (b : List Nat) :
    erase (write fs k b) k = erase fs k := by
  simp [write, erase, List.filter_filter]

/-- Erasing what is not a directory keeps the directories. -/
theorem keepsDirs_erase {fs : FileSystem} {k : Key} (h : isDirectory (node fs k) = false) :
    keepsDirs fs (erase fs k) := by
  intro q
  by_cases hq : q = k
  · subst hq
    constructor
    · intro hd
      rw [hd] at h
      cases h
    · intro hd
      rw [hd] at h
      cases h
  · rw [node_erase_of_ne fs k q hq]
    exact ⟨id, id⟩

/-- Writing a regular file where no directory is keeps the directories. -/
theorem keepsDirs_write {fs : FileSystem} {k : Key} (b : List Nat)
    (h : isDirectory (node fs k) = false) : keepsDirs fs (write fs k b) := by
  intro q
  by_cases hq : q = k
  · subst hq
    constructor
    · intro hd
      rw [hd] at h
      cases h
    · intro hd
      rw [hd] at h
      cases h
  · rw [node_write_of_ne fs k q b hq]
    exact ⟨id, id⟩

/-- What `status` tells about the table when it finds a regular file. -/
theorem node_of_status_file {fs : FileSystem} {p : String} {b : List Nat}
    (h : status fs p = some (Node.file b)) :
    walk fs p = Walk.reached (resolve p) ∧ node fs (resolve p) = some (Node.file b)
      ∧ resolve p ≠ [] ∧ p ≠ "" := by
  unfold status at h
  cases hw : walk fs p with
  | failed => simp [hw] at h
  | notDir => simp [hw] at h
  | missing => simp [hw] at h
  | reached k =>
    simp only [hw] at h
    obtain ⟨hk, hp, -, -⟩ := walk_reached hw
    subst hk
    refine ⟨rfl, h, ?_, hp⟩
    intro he
    rw [he, node_root] at h
    cases h

theorem status_of_walk {fs : FileSystem} {p : String} {k : Key}
    (h : walk fs p = Walk.reached k) : status fs p = node fs k := by
  simp [status, h]

theorem exists_of_status {fs : FileSystem} {p : String} {n : Node}
    (h : status fs p = some n) : exists_ fs p = some true := by
  unfold status at h
  unfold exists_
  cases hw : walk fs p with
  | failed => simp [hw] at h
  | notDir => simp [hw] at h
  | missing => simp [hw] at h
  | reached k =>
    simp only [hw] at h ⊢
    simp [h]

theorem exists_of_walk {fs : FileSystem} {p : String} {k : Key}
    (h : walk fs p = Walk.reached k) : exists_ fs p = some (node fs k).isSome := by
  simp [exists_, h]

theorem ne_empty_of_status {fs : FileSystem} {p : String} {n : Node}
    (h : status fs p = some n) : p ≠ "" := by
  intro hp
  subst hp
  simp [status, walk] at h

theorem file_size_of_status {fs : FileSystem} {p : String} {b : List Nat}
    (h : status fs p = some (Node.file b)) : file_size fs p = some b.length := by
  simp [file_size, h]

/-- A copy that succeeds: the source was a regular file, the target was read to its end
and held no directory and not the source, and the table then has the source's bytes there. -/
theorem copy_file_some {fs fs3 : FileSystem} {source target : String}
    (h : copy_file fs source target = some fs3) :
    ∃ b, walk fs source = Walk.reached (resolve source)
      ∧ node fs (resolve source) = some (Node.file b)
      ∧ walk fs target = Walk.reached (resolve target)
      ∧ isDirectory (node fs (resolve target)) = false
      ∧ resolve source ≠ resolve target
      ∧ resolve target ≠ []
      ∧ fs3 = write fs (resolve target) b := by
  unfold copy_file at h
  cases hs : walk fs source with
  | failed => simp [hs] at h
  | notDir => simp [hs] at h
  | missing => simp [hs] at h
  | reached ks =>
    cases ht : walk fs target with
    | failed => simp [hs, ht] at h
    | notDir => simp [hs, ht] at h
    | missing => simp [hs, ht] at h
    | reached kt =>
      obtain ⟨hks, -, -, -⟩ := walk_reached hs
      obtain ⟨hkt, -, -, -⟩ := walk_reached ht
      subst hks
      subst hkt
      simp only [hs, ht] at h
      cases hns : node fs (resolve source) with
      | none => simp [hns] at h
      | some n =>
        cases n with
        | dir => simp [hns] at h
        | lockedDir => simp [hns] at h
        | file b =>
          cases hnt : node fs (resolve target) with
          | none =>
            simp only [hns, hnt, Option.some.injEq] at h
            refine ⟨b, rfl, rfl, rfl, rfl, ?_, ?_, h.symm⟩
            · intro he
              rw [he, hnt] at hns
              cases hns
            · intro he
              rw [he, node_root] at hnt
              cases hnt
          | some m =>
            cases m with
            | dir => simp [hns, hnt] at h
            | lockedDir => simp [hns, hnt] at h
            | file c =>
              simp only [hns, hnt] at h
              split_ifs at h with hc
              refine ⟨b, rfl, rfl, rfl, rfl, hc, ?_, (Option.some.inj h).symm⟩
              intro he
              rw [he, node_root] at hnt
              cases hnt

/-- A copy to a target that is read to its end and holds nothing, from a regular file. -/
theorem copy_file_of_absent {fs : FileSystem} {source target : String} {b : List Nat}
    (hs : walk fs source = Walk.reached (resolve source))
    (hns : node fs (resolve source) = some (Node.file b))
    (ht : walk fs target = Walk.reached (resolve target))
    (hnt : node fs (resolve target) = none) :
    copy_file fs source target = some (write fs (resolve target) b) := by
  simp [copy_file, hs, ht, hns, hnt]

/-- A removal that succeeds on a path that exists: the object is erased. -/
theorem remove_some_of_exists {fs fs2 : FileSystem} {p : String}
    (he : exists_ fs p = some true) (h : remove fs p = some fs2) :
    walk fs p = Walk.reached (resolve p) ∧ fs2 = erase fs (resolve p) ∧ resolve p ≠ [] := by
  unfold exists_ at he
  unfold remove at h
  cases hw : walk fs p with
  | failed => simp [hw] at he
  | notDir => simp [hw] at he
  | missing => simp [hw] at he
  | reached k =>
    obtain ⟨hk, -, -, -⟩ := walk_reached hw
    subst hk
    simp only [hw] at he h
    cases hn : node fs (resolve p) with
    | none => simp [hn] at he
    | some n =>
      cases n with
      | file b =>
        simp only [hn, Option.some.injEq] at h
        refine ⟨rfl, h.symm, ?_⟩
        intro hr
        rw [hr, node_root] at hn
        cases hn
      | dir =>
        simp only [hn] at h
        split_ifs at h with hc
        rw [not_or] at hc
        exact ⟨rfl, (Option.some.inj h).symm, hc.1⟩
      | lockedDir =>
        simp only [hn] at h
        split_ifs at h with hc
        rw [not_or] at hc
        exact ⟨rfl, (Option.some.inj h).symm, hc.1⟩

/-- The guarded block that succeeds: the copy ran on a table that holds nothing at the
destination and agrees with the table before everywhere else, and wrote the bytes of
the source, a regular file, at the destination. -/
theorem tryCopy_some {fs1 fs3 : FileSystem} {path dest : String}
    (h : (tryCopy fs1 path dest).2 = some fs3) :
    ∃ fs2 b, node fs2 (resolve dest) = none
      ∧ (∀ q, q ≠ resolve dest → node fs2 q = node fs1 q)
      ∧ erase fs2 (resolve dest) = erase fs1 (resolve dest)
      ∧ walk fs2 path = Walk.reached (resolve path)
      ∧ node fs2 (resolve path) = some (Node.file b)
      ∧ walk fs2 dest = Walk.reached (resolve dest)
      ∧ resolve path ≠ resolve dest
      ∧ resolve dest ≠ []
      ∧ fs3 = write fs2 (resolve dest) b := by
  unfold tryCopy at h
  cases he : exists_ fs1 dest with
  | none => simp [he] at h
  | some ex =>
    cases ex with
    | false =>
      simp only [he] at h
      obtain ⟨b, hs, hns, ht, -, hne, hr, hw⟩ := copy_file_some h
      have hnt : node fs1 (resolve dest) = none := by
        rw [exists_of_walk ht] at he
        simpa using he
      exact ⟨fs1, b, hnt, fun _ _ => rfl, rfl, hs, hns, ht, hne, hr, hw⟩
    | true =>
      simp only [he] at h
      cases hrm : remove fs1 dest with
      | none => simp [hrm] at h
      | some fs2 =>
        simp only [hrm] at h
        obtain ⟨-, hfs2, hr⟩ := remove_some_of_exists he hrm
        obtain ⟨b, hs, hns, ht, -, hne, -, hw⟩ := copy_file_some h
        refine ⟨fs2, b, ?_, ?_, ?_, hs, hns, ht, hne, hr, hw⟩
        · rw [hfs2]
          exact node_erase_self fs1 _ hr
        · intro q hq
          rw [hfs2]
          exact node_erase_of_ne fs1 _ q hq
        · rw [hfs2, erase_erase]

/-! ## The conversions between `float` and `double` -/

theorem topBit_le (m k : Nat) : topBit m k ≤ k := by
  induction k with
  | zero => simp [topBit]
  | succ k ih =>
    unfold topBit
    split_ifs
    · exact le_refl _
    · omega

theorem topBit_spec (m k : Nat) (h0 : 0 < m) (h1 : m < 2 ^ (k + 1)) :
    2 ^ topBit m k ≤ m ∧ m < 2 ^ (topBit m k + 1) := by
  induction k with
  | zero =>
    simp only [topBit]
    constructor
    · simpa using h0
    · simpa using h1
  | succ k ih =>
    unfold topBit
    by_cases h : 2 ^ (k + 1) ≤ m
    · rw [if_pos h]
      exact ⟨h, h1⟩
    · rw [if_neg h]
      exact ih (by omega)

theorem roundShift_mul (m sh : Nat) : roundShift (m * 2 ^ sh) sh = m := by
  have hpos : 0 < 2 ^ sh := Nat.two_pow_pos _
  have hhalf : 0 < 2 ^ (sh - 1) := Nat.two_pow_pos _
  unfold roundShift
  rw [Nat.mul_mod_left, Nat.mul_div_cancel _ hpos]
  have h1 : ¬ (0 > 2 ^ (sh - 1) ∨ (0 = 2 ^ (sh - 1) ∧ m % 2 = 1)) := by
    intro h
    rcases h with h | ⟨h, -⟩ <;> omega
  rw [if_neg h1]

/-- The three fields of the bits of a `double`. -/
theorem double_fields (s E M : Nat) (hE : E < 2048) (hM : M < 4503599627370496) :
    (s * 2 ^ 63 + E * 2 ^ 52 + M) / 2 ^ 63 = s
      ∧ (s * 2 ^ 63 + E * 2 ^ 52 + M) / 2 ^ 52 % 2048 = E
      ∧ (s * 2 ^ 63 + E * 2 ^ 52 + M) % 2 ^ 52 = M := by
  norm_num
  omega

/-- The conversion to `float` in terms of the three fields of the `double`. -/
theorem narrowBits_fields (s E M : Nat) (hE : E < 2048) (hM : M < 4503599627370496) :
    narrowBits (s * 2 ^ 63 + E * 2 ^ 52 + M) =
      if E = 2047 then
        s * 2 ^ 31 + 255 * 2 ^ 23 + (if M = 0 then 0 else setQuiet (M / 2 ^ 29))
      else
        s * 2 ^ 31 +
          (if (if E < 897 then 0 else (E - 897) * 2 ^ 23)
                + roundShift (if E = 0 then M else 2 ^ 52 + M)
                    (if E < 897 then 926 - max E 1 else 29) ≥ 255 * 2 ^ 23
            then 255 * 2 ^ 23
            else (if E < 897 then 0 else (E - 897) * 2 ^ 23)
                + roundShift (if E = 0 then M else 2 ^ 52 + M)
                    (if E < 897 then 926 - max E 1 else 29)) := by
  obtain ⟨h1, h2, h3⟩ := double_fields s E M hE hM
  unfold narrowBits
  simp only [h1, h2, h3]

theorem roundShift_zero (sh : Nat) : roundShift 0 sh = 0 := by
  have hhalf : 0 < 2 ^ (sh - 1) := Nat.two_pow_pos _
  unfold roundShift
  rw [Nat.zero_mod, Nat.zero_div]
  have h1 : ¬ (0 > 2 ^ (sh - 1) ∨ (0 = 2 ^ (sh - 1) ∧ 0 % 2 = 1)) := by
    intro h
    rcases h with h | ⟨h, -⟩ <;> omega
  rw [if_neg h1]

/-- The three fields of the bits of a `float`. -/
theorem float_fields (f : Nat) (hf : f < 4294967296) :
    f / 2 ^ 31 < 2 ∧ f / 2 ^ 23 % 256 < 256 ∧ f % 2 ^ 23 < 8388608
      ∧ f = f / 2 ^ 31 * 2147483648 + f / 2 ^ 23 % 256 * 8388608 + f % 2 ^ 23
      ∧ f / 2 ^ 22 % 2 = f % 2 ^ 23 / 4194304 % 2 := by
  norm_num
  omega

/-- The `double` of a `float` given by its fields, and the `float` it converts back to:
the same, unless it is a signalling NaN. -/
theorem narrow_widen_fields (s e m : Nat) (hs : s < 2) (he : e < 256) (hm : m < 8388608)
    (hq : ¬ (e = 255 ∧ m ≠ 0 ∧ m / 4194304 % 2 = 0)) (d : Nat)
    (hd : d = if e = 255 then
        s * 2 ^ 63 + 2047 * 2 ^ 52 + (if m = 0 then 0 else setQuiet m * 2 ^ 29)
      else if e = 0 then
        if m = 0 then s * 2 ^ 63
        else s * 2 ^ 63 + (topBit m 22 + 874) * 2 ^ 52
          + (m - 2 ^ topBit m 22) * 2 ^ (52 - topBit m 22)
      else s * 2 ^ 63 + (e + 896) * 2 ^ 52 + m * 2 ^ 29) :
    d < 18446744073709551616 ∧ narrowBits d = s * 2147483648 + e * 8388608 + m := by
  have bound : ∀ E M, E < 2048 → M < 4503599627370496 →
      s * 2 ^ 63 + E * 2 ^ 52 + M < 18446744073709551616 := by
    intro E M hE hM
    norm_num
    omega
  by_cases h255 : e = 255
  · rw [if_pos h255] at hd
    by_cases hm0 : m = 0
    · rw [if_pos hm0] at hd
      subst hd
      refine ⟨bound 2047 0 (by decide) (by decide), ?_⟩
      rw [narrowBits_fields s 2047 0 (by decide) (by decide), if_pos rfl, if_pos rfl,
        h255, hm0]
      norm_num
    · rw [if_neg hm0] at hd
      have hquiet : m / 2 ^ 22 % 2 = 1 := by
        have : ¬ (m / 4194304 % 2 = 0) := fun h => hq ⟨h255, hm0, h⟩
        norm_num
        omega
      have hsq : setQuiet m = m := by
        unfold setQuiet
        rw [if_pos hquiet]
      rw [hsq] at hd
      have hM : m * 2 ^ 29 < 4503599627370496 := by norm_num; omega
      have hne : m * 2 ^ 29 ≠ 0 := by norm_num; omega
      subst hd
      refine ⟨bound 2047 _ (by decide) hM, ?_⟩
      rw [narrowBits_fields s 2047 (m * 2 ^ 29) (by decide) hM, if_pos rfl, if_neg hne,
        Nat.mul_div_cancel _ (Nat.two_pow_pos 29), hsq, h255]
      norm_num
  · rw [if_neg h255] at hd
    by_cases he0 : e = 0
    · rw [if_pos he0] at hd
      by_cases hm0 : m = 0
      · rw [if_pos hm0] at hd
        have hd2 : d = s * 2 ^ 63 + 0 * 2 ^ 52 + 0 := by rw [hd]; simp
        rw [hd2]
        refine ⟨bound 0 0 (by decide) (by decide), ?_⟩
        rw [narrowBits_fields s 0 0 (by decide) (by decide),
          if_neg (by decide : ¬ (0 : Nat) = 2047)]
        simp only [show (0 : Nat) < 897 from by decide, if_true, roundShift_zero]
        rw [he0, hm0]
        norm_num
      · rw [if_neg hm0] at hd
        obtain ⟨hk1, hk2⟩ := topBit_spec m 22 (by omega) (by norm_num; omega)
        have hk : topBit m 22 ≤ 22 := topBit_le m 22
        generalize topBit m 22 = k at hd hk1 hk2 hk
        have hpow : 2 ^ k * 2 ^ (52 - k) = 2 ^ 52 := by
          rw [← Nat.pow_add]
          congr 1
          omega
        have hM : (m - 2 ^ k) * 2 ^ (52 - k) < 4503599627370496 := by
          have h1 : m - 2 ^ k < 2 ^ k := by
            rw [Nat.pow_succ] at hk2
            omega
          have h2 := Nat.mul_lt_mul_of_pos_right h1 (Nat.two_pow_pos (52 - k))
          rw [hpow] at h2
          norm_num at h2 ⊢
          exact h2
        have htot : 2 ^ 52 + (m - 2 ^ k) * 2 ^ (52 - k) = m * 2 ^ (52 - k) := by
          rw [← hpow, ← Nat.add_mul]
          congr 1
          omega
        subst hd
        refine ⟨bound (k + 874) _ (by omega) hM, ?_⟩
        rw [narrowBits_fields s (k + 874) _ (by omega) hM]
        have hE1 : ¬ k + 874 = 2047 := by omega
        have hE2 : k + 874 < 897 := by omega
        have hE3 : ¬ k + 874 = 0 := by omega
        have hsh : 926 - max (k + 874) 1 = 52 - k := by omega
        have hsmall : ¬ (0 + m ≥ 255 * 2 ^ 23) := by norm_num; omega
        simp only [hE1, hE2, hE3, if_false, if_true, hsh, htot,
          roundShift_mul m (52 - k), hsmall]
        rw [he0]
        norm_num
    · rw [if_neg he0] at hd
      have hM : m * 2 ^ 29 < 4503599627370496 := by norm_num; omega
      have htot : 2 ^ 52 + m * 2 ^ 29 = (2 ^ 23 + m) * 2 ^ 29 := by
        norm_num
        omega
      subst hd
      refine ⟨bound (e + 896) _ (by omega) hM, ?_⟩
      rw [narrowBits_fields s (e + 896) _ (by omega) hM]
      have hE1 : ¬ e + 896 = 2047 := by omega
      have hE2 : ¬ e + 896 < 897 := by omega
      have hE3 : ¬ e + 896 = 0 := by omega
      have hsmall : ¬ ((e + 896 - 897) * 2 ^ 23 + (2 ^ 23 + m) ≥ 255 * 2 ^ 23) := by
        norm_num
        omega
      simp only [hE1, hE2, hE3, if_false, htot, roundShift_mul (2 ^ 23 + m) 29,
        hsmall]
      norm_num
      omega

/-- A `float` that is no signalling NaN comes back from `double` as it was. -/
theorem narrowBits_widenBits (f : Nat) (hf : f < 4294967296)
    (hq : ¬ (f / 2 ^ 23 % 256 = 255 ∧ f % 2 ^ 23 ≠ 0 ∧ f / 2 ^ 22 % 2 = 0)) :
    widenBits f < 18446744073709551616 ∧ narrowBits (widenBits f) = f := by
  obtain ⟨hs, he, hm, hsum, hbit⟩ := float_fields f hf
  have hq2 : ¬ (f / 2 ^ 23 % 256 = 255 ∧ f % 2 ^ 23 ≠ 0 ∧ f % 2 ^ 23 / 4194304 % 2 = 0) := by
    rw [← hbit]
    exact hq
  have h := narrow_widen_fields (f / 2 ^ 31) (f / 2 ^ 23 % 256) (f % 2 ^ 23) hs he hm hq2
    (widenBits f) rfl
  rw [← hsum] at h
  exact h

/-- The round trip of the conversions on a `float` that is no signalling NaN. -/
theorem narrow_widen (x : CFloat) (hx : ¬ isSignallingNaN x) : narrow (widen x) = x := by
  obtain ⟨h1, h2⟩ := narrowBits_widenBits x.bits.val x.bits.isLt hx
  have hw : (widen x).bits.val = widenBits x.bits.val := by
    show widenBits x.bits.val % 18446744073709551616 = widenBits x.bits.val
    exact Nat.mod_eq_of_lt h1
  have hn : (narrow (widen x)).bits.val = x.bits.val := by
    show narrowBits (widen x).bits.val % 4294967296 = x.bits.val
    rw [hw, h2]
    exact Nat.mod_eq_of_lt x.bits.isLt
  cases x with
  | mk xb =>
    cases hnw : narrow (widen ⟨xb⟩) with
    | mk yb =>
      rw [hnw] at hn
      congr 1
      exact Fin.ext hn

/-! ## Validation -/

/-- The import of an existing regular file, unfolded down to the size check. -/
theorem load_of_file (configDir path : String) (s : DeathSoundManager) (fs : FileSystem)
    (b : List Nat) (h : status fs path = some (Node.file b)) :
    loadSoundFromPath configDir path s fs =
      if b.length > 5 * 1024 * 1024 then ⟨some false, ["File too large! Max 5MB"], s, fs⟩
      else if ¬ supported (toLowerStr (extension path)) then
        ⟨some false, ["Must be .ogg, .mp3, or .wav!"], s, fs⟩
      else
        match create_directories fs (modDir configDir) with
        | none => ⟨none, [], s, (createDirs fs (modDir configDir)).1⟩
        | some fs1 =>
          match (tryCopy fs1 path (destPath configDir path)).2 with
          | none =>
            ⟨some false, ["Failed to copy file!"], s,
              (tryCopy fs1 path (destPath configDir path)).1⟩
          | some fs3 =>
            ⟨some true, ["Sound loaded successfully!"],
              { s with soundFilePath := destPath configDir path,
                       soundFileName := filename path,
                       useCustom := true }, fs3⟩ := by
  unfold loadSoundFromPath
  rw [if_neg (ne_empty_of_status h), exists_of_status h]
  simp only [file_size_of_status h, supported, not_or]

/-- The outcome of importing an existing regular file. -/
theorem outcome_of_file (configDir path : String) (s : DeathSoundManager) (fs : FileSystem)
    (b : List Nat) (h : status fs path = some (Node.file b)) :
    (loadSoundFromPath configDir path s fs).outcome =
      if b.length > 5 * 1024 * 1024 then Outcome.fileTooLarge
      else if ¬ supported (toLowerStr (extension path)) then Outcome.unsupportedFormat
      else
        match create_directories fs (modDir configDir) with
        | none => Outcome.uncaught
        | some fs1 =>
          match (tryCopy fs1 path (destPath configDir path)).2 with
          | none => Outcome.copyFailed
          | some _ => Outcome.success := by
  rw [load_of_file configDir path s fs b h]
  by_cases h1 : b.length > 5 * 1024 * 1024
  · simp [h1, Result.outcome]
  · by_cases h2 : supported (toLowerStr (extension path))
    · simp only [h1, h2, not_true_eq_false, if_false]
      cases create_directories fs (modDir configDir) with
      | none => simp [Result.outcome]
      | some fs1 =>
        cases hc : (tryCopy fs1 path (destPath configDir path)).2 <;>
          simp [Result.outcome, hc]
    · simp [h1, h2, Result.outcome]

/-- The import of a path the existence check reports as absent. -/
theorem load_of_absent (configDir path : String) (s : DeathSoundManager) (fs : FileSystem)
    (hp : path ≠ "") (h : exists_ fs path = some false) :
    loadSoundFromPath configDir path s fs = ⟨some false, ["File doesn't exist!"], s, fs⟩ := by
  simp [loadSoundFromPath, hp, h]

/-- The import of a path on which the existence check throws. -/
theorem load_of_throw (configDir path : String) (s : DeathSoundManager) (fs : FileSystem)
    (hp : path ≠ "") (h : exists_ fs path = none) :
    loadSoundFromPath configDir path s fs = ⟨none, [], s, fs⟩ := by
  simp [loadSoundFromPath, hp, h]

/-- The import of what exists and is no regular file: `file_size` throws. -/
theorem load_of_directory (configDir path : String) (s : DeathSoundManager) (fs : FileSystem)
    (hp : path ≠ "") (he : exists_ fs path = some true) (h : file_size fs path = none) :
    loadSoundFromPath configDir path s fs = ⟨none, [], s, fs⟩ := by
  simp [loadSoundFromPath, hp, he, h]

/-- The import once validation, directory creation and the guarded block went through. -/
theorem load_of_steps (configDir path : String) (s : DeathSoundManager)
    (fs fs1 fs3 : FileSystem) (bytes : List Nat)
    (hfile : status fs path = some (Node.file bytes))
    (hsize : bytes.length ≤ 5242880)
    (hsup : supported (toLowerStr (extension path)))
    (hmk : create_directories fs (modDir configDir) = some fs1)
    (hcp : (tryCopy fs1 path (destPath configDir path)).2 = some fs3) :
    loadSoundFromPath configDir path s fs =
      ⟨some true, ["Sound loaded successfully!"],
        { s with soundFilePath := destPath configDir path,
                 soundFileName := filename path,
                 useCustom := true }, fs3⟩ := by
  have hsz : ¬ bytes.length > 5 * 1024 * 1024 := by omega
  rw [load_of_file configDir path s fs bytes hfile, if_neg hsz, if_neg (not_not.2 hsup)]
  simp only [hmk, hcp]

/-- The table after a guarded block that succeeded: the destination holds the bytes the
source held before, and the table is the one before with that one entry replaced. -/
theorem status_after_tryCopy {fs1 fs3 : FileSystem} {path dest : String}
    (h : (tryCopy fs1 path dest).2 = some fs3) :
    ∃ b, node fs1 (resolve path) = some (Node.file b) ∧ status fs3 dest = some (Node.file b)
      ∧ fs3 = write (erase fs1 (resolve dest)) (resolve dest) b
      ∧ walk fs3 path = Walk.reached (resolve path)
      ∧ walk fs3 dest = Walk.reached (resolve dest)
      ∧ node fs3 (resolve path) = some (Node.file b)
      ∧ resolve dest ≠ []
      ∧ resolve path ≠ resolve dest := by
  obtain ⟨fs2, b, hnt, hsame, her, hs, hns, ht, hne, hr, hw⟩ := tryCopy_some h
  have hk : keepsDirs fs2 fs3 := by
    rw [hw]
    apply keepsDirs_write
    rw [hnt]
    rfl
  have hd3 : walk fs3 dest = Walk.reached (resolve dest) := walk_keepsDirs hk ht
  have hn3 : node fs3 (resolve dest) = some (Node.file b) := by
    rw [hw]
    exact node_write_self fs2 _ b hr
  refine ⟨b, ?_, ?_, ?_, walk_keepsDirs hk hs, hd3, ?_, hr, hne⟩
  · rw [← hsame _ hne]
    exact hns
  · rw [status_of_walk hd3]
    exact hn3
  · rw [hw]
    simp only [write, her, erase_erase]
  · rw [hw, node_write_of_ne _ _ _ _ hne]
    exact hns

/-- Claim C1: a source that is a regular file of at most 5 MiB with a supported extension
is imported with success whenever the directory creation and the guarded remove-and-copy
do not fail (which a source that is the destination itself never meets): the call returns
`true`, the destination `<configDir>/crazydeathsfx/<basename>` holds the source's bytes,
`soundFilePath` is the destination, `soundFileName` the base name, `useCustom` is true, and
`enabled`, `volume`, `pitch`, `speed` are as before. -/
theorem loadSoundFromPath_success (configDir path : String) (s : DeathSoundManager)
    (fs fs1 fs3 : FileSystem) (bytes : List Nat)
    (hfile : status fs path = some (Node.file bytes))
    (hsize : bytes.length ≤ 5242880)
    (hext : toLowerStr (extension path) = ".ogg" ∨ toLowerStr (extension path) = ".mp3"
      ∨ toLowerStr (extension path) = ".wav")
    (hmk : create_directories fs (modDir configDir) = some fs1)
    (hcp : (tryCopy fs1 path (destPath configDir path)).2 = some fs3) :
    (loadSoundFromPath configDir path s fs).ret = some true
    ∧ (loadSoundFromPath configDir path s fs).outcome = Outcome.success
    ∧ status (loadSoundFromPath configDir path s fs).fs (destPath configDir path)
        = some (Node.file bytes)
    ∧ (loadSoundFromPath configDir path s fs).store.soundFilePath
        = modDir configDir ++ filename path
    ∧ (loadSoundFromPath configDir path s fs).store.soundFileName = filename path
    ∧ (loadSoundFromPath configDir path s fs).store.useCustom = true
    ∧ (loadSoundFromPath configDir path s fs).store.enabled = s.enabled
    ∧ (loadSoundFromPath configDir path s fs).store.volume = s.volume
    ∧ (loadSoundFromPath configDir path s fs).store.pitch = s.pitch
    ∧ (loadSoundFromPath configDir path s fs).store.speed = s.speed := by
  have hload := load_of_steps configDir path s fs fs1 fs3 bytes hfile hsize hext hmk hcp
  obtain ⟨b, hb, hst, -⟩ := status_after_tryCopy hcp
  obtain ⟨-, hn, -, -⟩ := node_of_status_file hfile
  have hbb : b = bytes := by
    have := create_directories_node_mono hmk hn
    rw [hb] at this
    simpa using this
  rw [hload]
  refine ⟨rfl, rfl, ?_, rfl, rfl, rfl, rfl, rfl, rfl, rfl⟩
  rw [← hbb]
  exact hst

/-- Claim C6: an import rejected by validation (empty path, missing file, too large, wrong
format) leaves the store and the filesystem exactly as they were: no directory is created
and no file is removed or written. -/
theorem loadSoundFromPath_rejected_noop (configDir path : String) (s : DeathSoundManager)
    (fs : FileSystem)
    (hrej : (loadSoundFromPath configDir path s fs).outcome = Outcome.invalidPath
      ∨ (loadSoundFromPath configDir path s fs).outcome = Outcome.fileNotFound
      ∨ (loadSoundFromPath configDir path s fs).outcome = Outcome.fileTooLarge
      ∨ (loadSoundFromPath configDir path s fs).outcome = Outcome.unsupportedFormat) :
    (loadSoundFromPath configDir path s fs).store = s
    ∧ (loadSoundFromPath configDir path s fs).fs = fs := by
  revert hrej
  unfold loadSoundFromPath
  by_cases h1 : path = ""
  · simp [h1]
  · rw [if_neg h1]
    cases exists_ fs path with
    | none => simp [Result.outcome]
    | some ex =>
      cases ex with
      | false => simp
      | true =>
        cases file_size fs path with
        | none => simp [Result.outcome]
        | some n =>
          simp only
          split_ifs with h3 h4
          · simp
          · simp
          · cases create_directories fs (modDir configDir) with
            | none => simp [Result.outcome]
            | some fs1 =>
              cases hc : (tryCopy fs1 path (destPath configDir path)).2 <;>
                simp [Result.outcome, hc]

/-- An import that returned `true` went through validation, directory creation and the
guarded block. -/
theorem load_success_inv (configDir path : String) (s : DeathSoundManager) (fs : FileSystem)
    (h : (loadSoundFromPath configDir path s fs).ret = some true) :
    ∃ bytes fs1 fs3, status fs path = some (Node.file bytes) ∧ bytes.length ≤ 5242880
      ∧ supported (toLowerStr (extension path))
      ∧ create_directories fs (modDir configDir) = some fs1
      ∧ (tryCopy fs1 path (destPath configDir path)).2 = some fs3 := by
  by_cases hp : path = ""
  · simp [loadSoundFromPath, hp] at h
  cases he : exists_ fs path with
  | none =>
    rw [load_of_throw configDir path s fs hp he] at h
    simp at h
  | some ex =>
    cases ex with
    | false =>
      rw [load_of_absent configDir path s fs hp he] at h
      simp at h
    | true =>
      cases hs : status fs path with
      | none =>
        rw [load_of_directory configDir path s fs hp he (by simp [file_size, hs])] at h
        simp at h
      | some n =>
        cases n with
        | dir =>
          rw [load_of_directory configDir path s fs hp he (by simp [file_size, hs])] at h
          simp at h
        | lockedDir =>
          rw [load_of_directory configDir path s fs hp he (by simp [file_size, hs])] at h
          simp at h
        | file bytes =>
          rw [load_of_file configDir path s fs bytes hs] at h
          by_cases h1 : bytes.length > 5 * 1024 * 1024
          · simp [h1] at h
          · by_cases h2 : supported (toLowerStr (extension path))
            · simp only [h1, h2, not_true_eq_false, if_false] at h
              cases hmk : create_directories fs (modDir configDir) with
              | none => simp [hmk] at h
              | some fs1 =>
                cases hcp : (tryCopy fs1 path (destPath configDir path)).2 with
                | none => simp [hmk, hcp] at h
                | some fs3 => exact ⟨bytes, fs1, fs3, rfl, by omega, h2, rfl, hcp⟩
            · simp [h1, h2] at h

/-- An import that succeeded, run again on the store and the filesystem it left: it
succeeds again and leaves both as they were, the destination holding the source's bytes
in the one entry the table has for it. -/
theorem second_import (configDir path : String) (s : DeathSoundManager)
    (fs : FileSystem) (h1 : (loadSoundFromPath configDir path s fs).ret = some true) :
    (loadSoundFromPath configDir path (loadSoundFromPath configDir path s fs).store
        (loadSoundFromPath configDir path s fs).fs).ret = some true
    ∧ (loadSoundFromPath configDir path (loadSoundFromPath configDir path s fs).store
        (loadSoundFromPath configDir path s fs).fs).store
          = (loadSoundFromPath configDir path s fs).store
    ∧ (loadSoundFromPath configDir path (loadSoundFromPath configDir path s fs).store
        (loadSoundFromPath configDir path s fs).fs).fs
          = (loadSoundFromPath configDir path s fs).fs
    ∧ (∃ bytes, status fs path = some (Node.file bytes)
        ∧ status (loadSoundFromPath configDir path (loadSoundFromPath configDir path s fs).store
            (loadSoundFromPath configDir path s fs).fs).fs (destPath configDir path)
              = some (Node.file bytes))
    ∧ ((loadSoundFromPath configDir path (loadSoundFromPath configDir path s fs).store
        (loadSoundFromPath configDir path s fs).fs).fs.filter
          (fun e => decide (e.1 = resolve (destPath configDir path)))).length = 1 := by
  obtain ⟨bytes, fs1, fs3, hfile, hsize, hsup, hmk, hcp⟩ := load_success_inv configDir path s fs h1
  obtain ⟨b, hb, hst, hw, hp3, hd3, hn3, hr, hne⟩ := status_after_tryCopy hcp
  obtain ⟨-, hn, -, -⟩ := node_of_status_file hfile
  have hbb : b = bytes := by
    have := create_directories_node_mono hmk hn
    rw [hb] at this
    simpa using this
  subst hbb
  have hnd3 : node fs3 (resolve (destPath configDir path)) = some (Node.file b) := by
    rw [← status_of_walk hd3]
    exact hst
  -- the table without the destination, as the second removal leaves it
  have her : erase fs3 (resolve (destPath configDir path))
      = erase fs1 (resolve (destPath configDir path)) := by
    rw [hw, erase_write, erase_erase]
  have hk : keepsDirs fs3 (erase fs3 (resolve (destPath configDir path))) := by
    apply keepsDirs_erase
    rw [hnd3]
    rfl
  -- the second import, step by step
  have hfile3 : status fs3 path = some (Node.file b) := by
    rw [status_of_walk hp3]
    exact hn3
  have hmk3 : create_directories fs3 (modDir configDir) = some fs3 :=
    create_directories_of_walk_dest hd3
  have hcopy : copy_file (erase fs3 (resolve (destPath configDir path))) path
      (destPath configDir path) = some fs3 := by
    rw [copy_file_of_absent (walk_keepsDirs hk hp3)
      (by rw [node_erase_of_ne _ _ _ hne]; exact hn3) (walk_keepsDirs hk hd3)
      (node_erase_self fs3 _ hr)]
    rw [write, erase_erase, her, hw, write, erase_erase]
  have hcp3 : (tryCopy fs3 path (destPath configDir path)).2 = some fs3 := by
    unfold tryCopy
    rw [exists_of_status hst]
    have hrm : remove fs3 (destPath configDir path)
        = some (erase fs3 (resolve (destPath configDir path))) := by
      unfold remove
      rw [hd3]
      simp only [hnd3]
    simp only [hrm]
    exact hcopy
  rw [load_of_steps configDir path s fs fs1 fs3 b hfile hsize hsup hmk hcp]
  rw [load_of_steps configDir path _ fs3 fs3 fs3 b hfile3 hsize hsup hmk3 hcp3]
  refine ⟨rfl, rfl, rfl, ⟨b, hfile, hst⟩, ?_⟩
  show (fs3.filter (fun e => decide (e.1 = resolve (destPath configDir path)))).length = 1
  rw [hw]
  simp [write, erase, List.filter_filter]

/-- Claim C7 (as amended): for a source that is a regular file of at most 5 MiB with a
supported extension, when the directory creation and the guarded remove-and-copy of the
first import do not fail (which a source that is the destination itself never meets),
importing it twice in a row succeeds both times, and the second import leaves the store and
the filesystem exactly as they were after the first one: the destination holds the source's
bytes and the table has exactly one entry for it. -/
theorem loadSoundFromPath_twice (configDir path : String) (s : DeathSoundManager)
    (fs fs1 fs3 : FileSystem) (bytes : List Nat)
    (hfile : status fs path = some (Node.file bytes))
    (hsize : bytes.length ≤ 5242880)
    (hext : toLowerStr (extension path) = ".ogg" ∨ toLowerStr (extension path) = ".mp3"
      ∨ toLowerStr (extension path) = ".wav")
    (hmk : create_directories fs (modDir configDir) = some fs1)
    (hcp : (tryCopy fs1 path (destPath configDir path)).2 = some fs3) :
    (loadSoundFromPath configDir path s fs).ret = some true
    ∧ (loadSoundFromPath configDir path (loadSoundFromPath configDir path s fs).store
        (loadSoundFromPath configDir path s fs).fs).ret = some true
    ∧ (loadSoundFromPath configDir path (loadSoundFromPath configDir path s fs).store
        (loadSoundFromPath configDir path s fs).fs).store
          = (loadSoundFromPath configDir path s fs).store
    ∧ (loadSoundFromPath configDir path (loadSoundFromPath configDir path s fs).store
        (loadSoundFromPath configDir path s fs).fs).fs
          = (loadSoundFromPath configDir path s fs).fs
    ∧ status (loadSoundFromPath configDir path (loadSoundFromPath configDir path s fs).store
        (loadSoundFromPath configDir path s fs).fs).fs (destPath configDir path)
          = some (Node.file bytes)
    ∧ ((loadSoundFromPath configDir path (loadSoundFromPath configDir path s fs).store
        (loadSoundFromPath configDir path s fs).fs).fs.filter
          (fun e => decide (e.1 = resolve (destPath configDir path)))).length = 1 := by
  have h1 : (loadSoundFromPath configDir path s fs).ret = some true := by
    rw [load_of_steps configDir path s fs fs1 fs3 bytes hfile hsize hext hmk hcp]
  obtain ⟨h2, h3, h4, ⟨b, hb, hst⟩, h5⟩ := second_import configDir path s fs h1
  have hbb : b = bytes := by
    rw [hfile] at hb
    simpa using hb.symm
  rw [hbb] at hst
  exact ⟨h1, h2, h3, h4, hst, h5⟩

/-- Claim C2 (as amended): a non-empty path for which the existence check returns false is
rejected with the "File doesn't exist!" notification (the FileNotFound outcome) and the
store is left as it was; the empty path is rejected without any notification (the
InvalidPath outcome), whatever the filesystem holds. -/
theorem loadSoundFromPath_missing (configDir path : String) (s : DeathSoundManager)
    (fs : FileSystem) :
    (path ≠ "" → exists_ fs path = some false →
      (loadSoundFromPath configDir path s fs).outcome = Outcome.fileNotFound
      ∧ (loadSoundFromPath configDir path s fs).ret = some false
      ∧ (loadSoundFromPath configDir path s fs).notes = ["File doesn't exist!"]
      ∧ (loadSoundFromPath configDir path s fs).store = s)
    ∧ (loadSoundFromPath configDir "" s fs).outcome = Outcome.invalidPath
    ∧ (loadSoundFromPath configDir "" s fs).ret = some false
    ∧ (loadSoundFromPath configDir "" s fs).notes = []
    ∧ (loadSoundFromPath configDir "" s fs).store = s := by
  refine ⟨?_, ?_⟩
  · intro hne hex
    rw [load_of_absent configDir path s fs hne hex]
    simp [Result.outcome]
  · simp [loadSoundFromPath, Result.outcome]

/-- Claim C8 (as amended): with `enabled` false nothing is played; with `enabled` true, when
the existence check of line 108 (made only when `useCustom` holds and the path is not
empty) does not throw, exactly one playback starts, with the store's volume, pitch and
speed, from `soundFilePath` when `useCustom` holds, the path is not empty and the check
returns true, and from the built-in `explode_001.ogg` in every other case, so also when
the file was deleted; the store is never changed. -/
theorem playDeathSound_spec (s : DeathSoundManager) (fs : FileSystem) :
    (playDeathSound s fs).store = s
    ∧ (s.enabled = false →
        (playDeathSound s fs).played = [] ∧ (playDeathSound s fs).returned = true)
    ∧ (s.enabled = true →
        (s.useCustom = true → s.soundFilePath ≠ "" → exists_ fs s.soundFilePath ≠ none) →
        (playDeathSound s fs).played =
          [⟨if s.useCustom = true ∧ s.soundFilePath ≠ ""
                ∧ exists_ fs s.soundFilePath = some true
              then s.soundFilePath else "explode_001.ogg", s.volume, s.pitch, s.speed⟩]
        ∧ (playDeathSound s fs).returned = true)
    ∧ (s.enabled = true → s.useCustom = true → exists_ fs s.soundFilePath = some false →
        (playDeathSound s fs).played = [⟨"explode_001.ogg", s.volume, s.pitch, s.speed⟩]) := by
  unfold playDeathSound
  refine ⟨?_, ?_, ?_, ?_⟩
  · split_ifs
    · rfl
    · cases exists_ fs s.soundFilePath with
      | none => rfl
      | some b => cases b <;> rfl
    · rfl
  · intro h
    simp [h]
  · intro h hno
    simp only [h, Bool.true_eq_false, if_false]
    by_cases hc : s.useCustom = true ∧ s.soundFilePath ≠ ""
    · rw [if_pos hc]
      have hne := hno hc.1 hc.2
      cases he : exists_ fs s.soundFilePath with
      | none => exact absurd he hne
      | some b =>
        cases b with
        | true => simp [hc.1, hc.2]
        | false => simp
    · rw [if_neg hc]
      have hc2 : ¬ (s.useCustom = true ∧ s.soundFilePath ≠ ""
          ∧ exists_ fs s.soundFilePath = some true) := fun h3 => hc ⟨h3.1, h3.2.1⟩
      rw [if_neg hc2]
      exact ⟨rfl, rfl⟩
  · intro h1 h2 h3
    simp only [h1, Bool.true_eq_false, if_false]
    by_cases hp : s.soundFilePath = ""
    · simp [hp]
    · simp [h2, hp, h3]

theorem get_saved (s : DeathSoundManager) (m : Settings) :
    getString (saveSettings s m) "custom-sound-path" = s.soundFilePath
    ∧ getString (saveSettings s m) "sound-name" = s.soundFileName
    ∧ getDouble (saveSettings s m) "volume" = widen s.volume
    ∧ getDouble (saveSettings s m) "pitch" = widen s.pitch
    ∧ getDouble (saveSettings s m) "speed" = widen s.speed
    ∧ getBool (saveSettings s m) "enabled" = s.enabled
    ∧ getBool (saveSettings s m) "use-custom" = s.useCustom := by
  refine ⟨?_, ?_, ?_, ?_, ?_, ?_, ?_⟩ <;>
    simp [saveSettings, setSettingValue, getString, getDouble, getBool]

/-- The seven assignments of `loadSettings` after a save. -/
theorem readSettings_saved (s : DeathSoundManager) (m : Settings) :
    readSettings (saveSettings s m) =
      { soundFilePath := s.soundFilePath
        soundFileName := s.soundFileName
        volume := narrow (widen s.volume)
        pitch := narrow (widen s.pitch)
        speed := narrow (widen s.speed)
        enabled := s.enabled
        useCustom := s.useCustom } := by
  obtain ⟨h1, h2, h3, h4, h5, h6, h7⟩ := get_saved s m
  simp [readSettings, h1, h2, h3, h4, h5, h6, h7]

/-- The store `loadSettings` leaves: the seven assignments, and the base name of the path
as name when the path is not empty and the existence check returns true. -/
theorem loadSettings_store (m : Settings) (fs : FileSystem) :
    (loadSettings m fs).store =
      { readSettings m with
        soundFileName :=
          if (readSettings m).soundFilePath ≠ ""
              ∧ exists_ fs (readSettings m).soundFilePath = some true
            then filename (readSettings m).soundFilePath
            else (readSettings m).soundFileName } := by
  unfold loadSettings
  generalize readSettings m = r
  rcases r with ⟨p, n, v, pt, sp, en, uc⟩
  by_cases hp : p = ""
  · simp [hp]
  · simp only [if_neg hp]
    cases he : exists_ fs p with
    | none => simp
    | some b => cases b <;> simp [hp]

set_option maxRecDepth 100000

/-- Claim C5, at the failing input: with a regular file in the place of the mod directory,
the import of the valid file `/sd/a.wav` does not return `false` after "Failed to copy
file!": `create_directories` (line 77) stands before the `try` and its `filesystem_error`
leaves `loadSoundFromPath`; so does the one of `file_size` (line 60) for a directory. The
failure of `remove` inside the `try`, on a destination that is a directory with content,
is caught and does give "Failed to copy file!". -/
theorem loadSoundFromPath_createDirs_escapes :
    status blockedCard "/sd/a.wav" = some (Node.file [1, 2, 3])
    ∧ toLowerStr (extension "/sd/a.wav") = ".wav"
    ∧ create_directories blockedCard (modDir "/cfg") = none
    ∧ (loadSoundFromPath "/cfg" "/sd/a.wav" initialStore blockedCard).ret = none
    ∧ (loadSoundFromPath "/cfg" "/sd/a.wav" initialStore blockedCard).notes = []
    ∧ (loadSoundFromPath "/cfg" "/sd/a.wav" initialStore blockedCard).outcome = Outcome.uncaught
    ∧ (loadSoundFromPath "/cfg" "/sd" initialStore blockedCard).outcome = Outcome.uncaught
    ∧ remove clashCard (destPath "/cfg" "/sd/a.wav") = none
    ∧ (loadSoundFromPath "/cfg" "/sd/a.wav" initialStore clashCard).ret = some false
    ∧ (loadSoundFromPath "/cfg" "/sd/a.wav" initialStore clashCard).notes
        = ["Failed to copy file!"] := by
  decide

/-- Claim C7 fails as stated: `/cfg/crazydeathsfx/a.WaV` is a regular file of three bytes
with a supported extension, and its import with `/cfg` as configuration directory fails
with "Failed to copy file!" and leaves no file at the destination. -/
theorem loadSoundFromPath_twice_counterexample :
    status sdCardImported "/cfg/crazydeathsfx/a.WaV" = some (Node.file [1, 2, 3])
    ∧ toLowerStr (extension "/cfg/crazydeathsfx/a.WaV") = ".wav"
    ∧ (loadSoundFromPath "/cfg" "/cfg/crazydeathsfx/a.WaV" initialStore sdCardImported).ret
        = some false
    ∧ (loadSoundFromPath "/cfg" "/cfg/crazydeathsfx/a.WaV" initialStore sdCardImported).outcome
        = Outcome.copyFailed
    ∧ status (loadSoundFromPath "/cfg" "/cfg/crazydeathsfx/a.WaV" initialStore sdCardImported).fs
        (destPath "/cfg" "/cfg/crazydeathsfx/a.WaV") = none := by
  decide

/-- Claim C2 fails as stated: `longPath` is not empty and names nothing on the device, and
its import does not end with "File doesn't exist!": the existence check of line 54 throws
for the name of 300 bytes, and the `filesystem_error` leaves `loadSoundFromPath`. -/
theorem loadSoundFromPath_missing_counterexample :
    longPath ≠ ""
    ∧ status sdCard longPath = none
    ∧ lookupKey sdCard (resolve longPath) = none
    ∧ exists_ sdCard longPath = none
    ∧ (loadSoundFromPath "/cfg" longPath initialStore sdCard).ret = none
    ∧ (loadSoundFromPath "/cfg" longPath initialStore sdCard).notes = []
    ∧ (loadSoundFromPath "/cfg" longPath initialStore sdCard).outcome = Outcome.uncaught := by
  decide

/-- Claim C8 fails as stated: with `enabled` and `useCustom` true and `longPath` as
`soundFilePath`, `playDeathSound` starts no playback at all: the existence check of line
108 throws for the name of 300 bytes, and the `filesystem_error` leaves the function. -/
theorem playDeathSound_spec_counterexample :
    longStore.enabled = true
    ∧ longStore.useCustom = true
    ∧ status sdCard longStore.soundFilePath = none
    ∧ (playDeathSound longStore sdCard).played = []
    ∧ (playDeathSound longStore sdCard).returned = false := by
  decide

/-- The import of `/sd/a.WaV` on the device: every step goes through and the destination holds the three bytes. -/
theorem loadSoundFromPath_success_witness :
    status sdCard "/sd/a.WaV" = some (Node.file [1, 2, 3])
    ∧ create_directories sdCard (modDir "/cfg") = some sdCardReady
    ∧ (tryCopy sdCardReady "/sd/a.WaV" (destPath "/cfg" "/sd/a.WaV")).2 = some sdCardImported
    ∧ (loadSoundFromPath "/cfg" "/sd/a.WaV" initialStore sdCard).ret = some true
    ∧ status (loadSoundFromPath "/cfg" "/sd/a.WaV" initialStore sdCard).fs
        (destPath "/cfg" "/sd/a.WaV") = some (Node.file [1, 2, 3]) :=
  have h := loadSoundFromPath_success "/cfg" "/sd/a.WaV" initialStore sdCard sdCardReady
    sdCardImported [1, 2, 3] (by decide) (by decide) (by decide) (by decide) (by decide)
  ⟨by decide, by decide, by decide, h.1, h.2.2.1⟩

/-- The import of `/sd/missing/../a.WaV`, a path through a directory that is not there. -/
theorem loadSoundFromPath_missing_witness :
    "/sd/missing/../a.WaV" ≠ "" ∧ exists_ sdCard "/sd/missing/../a.WaV" = some false
    ∧ (loadSoundFromPath "/cfg" "/sd/missing/../a.WaV" initialStore sdCard).outcome
        = Outcome.fileNotFound
    ∧ (loadSoundFromPath "/cfg" "/sd/missing/../a.WaV" initialStore sdCard).store
        = initialStore :=
  have h := (loadSoundFromPath_missing "/cfg" "/sd/missing/../a.WaV" initialStore sdCard).1
    (by decide) (by decide)
  ⟨by decide, by decide, h.1, h.2.2.2⟩

/-- The import of the text file `/sd/notes.txt` changes nothing. -/
theorem loadSoundFromPath_rejected_noop_witness :
    (loadSoundFromPath "/cfg" "/sd/notes.txt" initialStore sdCard).outcome
        = Outcome.unsupportedFormat
    ∧ (loadSoundFromPath "/cfg" "/sd/notes.txt" initialStore sdCard).store = initialStore
    ∧ (loadSoundFromPath "/cfg" "/sd/notes.txt" initialStore sdCard).fs = sdCard :=
  ⟨by decide,
    loadSoundFromPath_rejected_noop "/cfg" "/sd/notes.txt" initialStore sdCard
      (Or.inr (Or.inr (Or.inr (by decide))))⟩

/-- Playback with a custom sound: the file that is there is played, and a file that is
gone makes the built-in sound play. -/
theorem playDeathSound_spec_witness :
    presentStore.enabled = true
    ∧ exists_ sdCard presentStore.soundFilePath = some true
    ∧ (playDeathSound presentStore sdCard).played
        = [⟨"/sd/a.WaV", presentStore.volume, presentStore.pitch, presentStore.speed⟩]
    ∧ staleStore.enabled = true ∧ staleStore.useCustom = true
    ∧ exists_ sdCard staleStore.soundFilePath = some false
    ∧ (playDeathSound staleStore sdCard).played
        = [⟨"explode_001.ogg", staleStore.volume, staleStore.pitch, staleStore.speed⟩]
    ∧ (playDeathSound staleStore sdCard).store = staleStore :=
  have h := playDeathSound_spec staleStore sdCard
  have g := (playDeathSound_spec presentStore sdCard).2.2.1 (by decide)
    (fun _ _ => by decide)
  ⟨by decide, by decide, g.1.trans (by decide), by decide, by decide, by decide,
    h.2.2.2 (by decide) (by decide) (by decide), h.1⟩

/-- The import of `/sd/a.WaV`, twice in a row. -/
theorem loadSoundFromPath_twice_witness :
    status sdCard "/sd/a.WaV" = some (Node.file [1, 2, 3])
    ∧ create_directories sdCard (modDir "/cfg") = some sdCardReady
    ∧ (tryCopy sdCardReady "/sd/a.WaV" (destPath "/cfg" "/sd/a.WaV")).2 = some sdCardImported
    ∧ (loadSoundFromPath "/cfg" "/sd/a.WaV"
        (loadSoundFromPath "/cfg" "/sd/a.WaV" initialStore sdCard).store
        (loadSoundFromPath "/cfg" "/sd/a.WaV" initialStore sdCard).fs).ret = some true
    ∧ (loadSoundFromPath "/cfg" "/sd/a.WaV"
        (loadSoundFromPath "/cfg" "/sd/a.WaV" initialStore sdCard).store
        (loadSoundFromPath "/cfg" "/sd/a.WaV" initialStore sdCard).fs).fs
          = (loadSoundFromPath "/cfg" "/sd/a.WaV" initialStore sdCard).fs :=
  have h := loadSoundFromPath_twice "/cfg" "/sd/a.WaV" initialStore sdCard sdCardReady
    sdCardImported [1, 2, 3] (by decide) (by decide) (by decide) (by decide) (by decide)
  ⟨by decide, by decide, by decide, h.2.1, h.2.2.2.1⟩

end CrazyDeathSfx
